import Mathlib

/-!
# Verification of `synkhronos/shmemarray.py`

A shallow embedding of the shared-memory array module.  The module wraps the
POSIX shared-memory API (via `posix_ipc`): a kernel namespace maps string tags
to shared-memory segments.  We model that namespace as an association list
from tags to segments (a segment records its byte size and its byte
contents), and each Python function becomes a Lean function threading the
namespace explicitly.  Fallible operations return `Except PyError`, where
each `PyError` constructor corresponds to one distinct raise site in the
source (Python collapses several of them into `AssertionError`/`ValueError`;
we keep them apart so theorems can name the failing check).
-/

namespace Shmem

/-- Byte size and byte contents of one kernel shared-memory segment.
A freshly created POSIX segment is zero-filled. -/
structure Segment where
  size : Nat
  data : List Nat
  deriving DecidableEq

/-- The OS-global shared-memory namespace: tag names to live segments. -/
abbrev Namespace := List (String × Segment)

/-- Errors, one constructor per raise site in the source.
`sizeRangeAssert` is the `assert 0 <= size < sys.maxsize` (line 55);
`alreadyExists` and `notFound` are `posix_ipc.ExistentialError` from
exclusive create / open of a missing name; `sizeMismatchAssert` is
`assert self._map.size() == self.size` (line 64); `invalidTag` is the
`assert frozenset(tag).issubset(valid_chars)` (line 76); `indexError` is
`tag[0]` on the empty string (line 77); `typeError` is an unknown typecode
reaching `type_ * n` (line 80); `negLength` is a negative ctypes array
length; `mmapEmpty` is the `ValueError` CPython raises from
`mmap.mmap(fd, 0)` on a zero-length file ("cannot mmap an empty file",
line 58); `unsupportedDType` is the `ValueError` of `NpShmemArray`
(line 117). -/
inductive PyError where
  | sizeRangeAssert
  | alreadyExists
  | notFound
  | sizeMismatchAssert
  | invalidTag
  | indexError
  | typeError
  | negLength
  | mmapEmpty
  | unsupportedDType
  deriving DecidableEq

/-- First segment registered under `tag`, if any. -/
def lookupNs (ns : Namespace) (tag : String) : Option Segment :=
  match ns with
  | [] => none
  | (k, s) :: rest => if k = tag then some s else lookupNs rest tag

/-- Remove the first entry registered under `tag` (kernel `shm_unlink`). -/
def removeNs (ns : Namespace) (tag : String) : Namespace :=
  match ns with
  | [] => []
  | (k, s) :: rest => if k = tag then rest else (k, s) :: removeNs rest tag

/-- Replace the segment stored under `tag` (first occurrence). -/
def updateNs (ns : Namespace) (tag : String) (seg : Segment) : Namespace :=
  match ns with
  | [] => []
  | (k, s) :: rest => if k = tag then (k, seg) :: rest else (k, s) :: updateNs rest tag seg

/-- `sys.maxsize` on a 64-bit platform. -/
def sysMaxsize : Nat := 2 ^ 63 - 1

/-- `ftruncate(fd, size)` on a shared-memory segment: the byte size becomes
`size`, kept bytes are preserved, and an extension is zero-filled. -/
def ftruncateSeg (seg : Segment) (size : Nat) : Segment :=
  ⟨size, seg.data.take size ++ List.replicate (size - seg.data.length) 0⟩

/-- `posix_ipc.SharedMemory(tag, flags, size)`.  With `O_CREX` (`creat =
true`) it exclusively creates a named object, failing if the tag is live;
with `flags = 0` it opens the existing object, failing if the tag is not
live.  In both modes posix_ipc then calls `ftruncate(fd, size)` whenever
`size` is non-zero — so an open with a non-zero `size` silently resizes
the existing segment to that size — while `size = 0` leaves the object as
found.  Returns the new namespace, the kernel name held by the handle, and
the actual segment size afterwards (`self._mem.size`, an `fstat`). -/
def sharedMemory (ns : Namespace) (tag : String) (creat : Bool) (size : Nat) :
    Except PyError (Namespace × String × Nat) :=
  if creat then
    match lookupNs ns tag with
    | some _ => .error .alreadyExists
    | none => .ok ((tag, ⟨size, List.replicate size 0⟩) :: ns, tag, size)
  else
    match lookupNs ns tag with
    | some seg =>
        if size = 0 then .ok (ns, tag, seg.size)
        else .ok (updateNs ns tag (ftruncateSeg seg size), tag, size)
    | none => .error .notFound

/-- `posix_ipc` `unlink`: removes the name from the kernel namespace;
raises `ExistentialError` if the name is no longer registered. -/
def shmUnlink (ns : Namespace) (name : String) : Except PyError Namespace :=
  match lookupNs ns name with
  | some _ => .ok (removeNs ns name)
  | none => .error .notFound

/-- State of one `ShmemBufferWrapper` after `__init__`: `mem` is the
`posix_ipc.SharedMemory` handle (identified by its kernel name; the file
descriptor is closed right after mapping), `map` is the `mmap` region
(identified by its mapped length), `owner` is `self._owner = create`, and
`size` is `self.size` (the byte size the caller asked for). -/
structure ShmemBufferWrapper where
  mem : Option String
  map : Option Nat
  owner : Bool
  size : Nat
  deriving DecidableEq

/-- `ShmemBufferWrapper.__init__(tag, size, create)`:
`assert 0 <= size < sys.maxsize`; exclusive-create or open the segment;
`mmap.mmap(self._mem.fd, self._mem.size)` the actual segment size — which
raises `ValueError` ("cannot mmap an empty file") when the segment is
zero-length, since `mmap` with length 0 maps the whole file and CPython
rejects an empty one; close the descriptor. -/
def wrapperInit (ns : Namespace) (tag : String) (size : Int) (create : Bool) :
    Except PyError (Namespace × ShmemBufferWrapper) :=
  if 0 ≤ size ∧ size < (sysMaxsize : Int) then
    match sharedMemory ns tag create size.toNat with
    | .error e => .error e
    | .ok (ns1, name, actual) =>
        if actual = 0 then .error .mmapEmpty
        else .ok (ns1,
          { mem := some name, map := some actual, owner := create, size := size.toNat })
  else .error .sizeRangeAssert

/-- `ShmemBufferWrapper.get_address`: `assert self._map.size() == self.size`
before handing out the address of the mapped buffer.  The numeric address is
opaque, so we only record success or failure. -/
def get_address (w : ShmemBufferWrapper) : Except PyError Unit :=
  match w.map with
  | some len => if len = w.size then .ok () else .error .sizeMismatchAssert
  | none => .error .typeError

/-- Outcome of `ShmemBufferWrapper.__del__`: the namespace afterwards,
whether `self._map.close()` ran, whether an unlink was attempted, and the
messages the interpreter printed for exceptions swallowed inside the
finalizer (CPython never propagates an exception out of `__del__`). -/
structure DelResult where
  ns : Namespace
  unmapped : Bool
  unlinkAttempted : Bool
  logs : List String
  deriving DecidableEq

/-- `ShmemBufferWrapper.__del__`: close the mapping if present; if the
handle holds a kernel name and is the owner, unlink it.  An
`ExistentialError` raised by the unlink is swallowed by the interpreter
(logged to stderr), never raised to the caller. -/
def wrapperDel (ns : Namespace) (w : ShmemBufferWrapper) : DelResult :=
  let unmapped := w.map.isSome
  match w.mem, w.owner with
  | some name, true =>
      match shmUnlink ns name with
      | .ok ns1 => { ns := ns1, unmapped := unmapped, unlinkAttempted := true, logs := [] }
      | .error _ =>
          { ns := ns, unmapped := unmapped, unlinkAttempted := true,
            logs := ["Exception ignored in __del__"] }
  | _, _ => { ns := ns, unmapped := unmapped, unlinkAttempted := false, logs := [] }

/-- The ctypes element types appearing in the module's tables. -/
inductive CType where
  | c_char
  | c_wchar
  | c_byte
  | c_ubyte
  | c_short
  | c_ushort
  | c_int
  | c_uint
  | c_long
  | c_ulong
  | c_float
  | c_double
  | c_longlong
  | c_ulonglong
  deriving DecidableEq

/-- `ctypes.sizeof` on a 64-bit Linux platform. -/
def sizeofC : CType → Nat
  | .c_char => 1
  | .c_wchar => 4
  | .c_byte => 1
  | .c_ubyte => 1
  | .c_short => 2
  | .c_ushort => 2
  | .c_int => 4
  | .c_uint => 4
  | .c_long => 8
  | .c_ulong => 8
  | .c_float => 4
  | .c_double => 8
  | .c_longlong => 8
  | .c_ulonglong => 8

/-- The `typecode_to_type` dictionary. -/
def typecode_to_type : Char → Option CType
  | 'c' => some .c_char
  | 'u' => some .c_wchar
  | 'b' => some .c_byte
  | 'B' => some .c_ubyte
  | 'h' => some .c_short
  | 'H' => some .c_ushort
  | 'i' => some .c_int
  | 'I' => some .c_uint
  | 'l' => some .c_long
  | 'L' => some .c_ulong
  | 'f' => some .c_float
  | 'd' => some .c_double
  | _ => none

/-- Membership in the `valid_chars` frozenset: slash, dash, underscore,
dot, space, ASCII letters, digits. -/
def valid_chars (c : Char) : Bool :=
  c = '/' || c = '-' || c = '_' || c = '.' || c = ' ' || c.isAlpha || c.isDigit

/-- Lines 76-78 of the source: `assert frozenset(tag).issubset(valid_chars)`,
then `tag[0]` (an `IndexError` on the empty string), then prefix a `/` if
the first character is not already one. -/
def checkTagNormalize (tag : String) : Except PyError String :=
  if tag.toList.all valid_chars then
    match tag.toList with
    | [] => .error .indexError
    | c :: _ => .ok (if c ≠ '/' then "/" ++ tag else tag)
  else .error .invalidTag

/-- `typecode_or_type`: either a one-character typecode or a ctypes type. -/
inductive TypeArg where
  | code (c : Char)
  | ty (t : CType)
  deriving DecidableEq

/-- `typecode_to_type.get(x, x)`: a typecode is translated through the
table; a ctypes type passes through.  An unknown typecode falls through as a
plain character and blows up as a `TypeError` at `type_ * n`. -/
def resolveType : TypeArg → Option CType
  | .code c => typecode_to_type c
  | .ty t => some t

/-- `size_or_initializer`: a Python int, or a sequence of element values
(modelled as machine integers already reduced to their unsigned byte
patterns). -/
inductive SizeOrInit where
  | size (n : Int)
  | vals (vs : List Nat)
  deriving DecidableEq

/-- Element count of the ctypes array type `type_ * n`: a negative length
raises `ValueError`; an initializing sequence contributes its length. -/
def arrayCount : SizeOrInit → Except PyError Nat
  | .size n => if n < 0 then .error .negLength else .ok n.toNat
  | .vals vs => .ok vs.length

/-- Little-endian byte image of `v` in `w` bytes (how ctypes stores an
in-range integer value on x86-64). -/
def encodeLE : Nat → Nat → List Nat
  | 0, _ => []
  | w + 1, v => v % 256 :: encodeLE w (v / 256)

/-- Little-endian value of a byte list. -/
def decodeLE : List Nat → Nat
  | [] => 0
  | b :: bs => b % 256 + 256 * decodeLE bs

/-- Overwrite `bs.length` bytes of `d` starting at offset `off`. -/
def writeBytes (d : List Nat) (off : Nat) (bs : List Nat) : List Nat :=
  d.take off ++ bs ++ d.drop (off + bs.length)

/-- Read `w` bytes of `d` starting at offset `off`. -/
def readBytes (d : List Nat) (off : Nat) (w : Nat) : List Nat :=
  (d.drop off).take w

/-- `obj.__init__(*seq)` on a ctypes array: store each value into its
element slot in order, element `i` at byte offset `i * sz`. -/
def writeElems (d : List Nat) (sz : Nat) (i : Nat) (vs : List Nat) : List Nat :=
  match vs with
  | [] => d
  | v :: rest => writeElems (writeBytes d (i * sz) (encodeLE sz v)) sz (i + 1) rest

/-- Run the element-wise stores of `obj.__init__(*vs)` against the segment
registered under `tag`. -/
def objInitWrite (ns : Namespace) (tag : String) (sz : Nat) (vs : List Nat) : Namespace :=
  match lookupNs ns tag with
  | some seg => updateNs ns tag { seg with data := writeElems seg.data sz 0 vs }
  | none => ns

/-- The namespace after the optional element-wise initialization of lines
90-92: the writes run only when a sequence (not an int) was given. -/
def finalNs (ns1 : Namespace) (tagN : String) (sz : Nat) : SizeOrInit → Namespace
  | .size _ => ns1
  | .vals vs => objInitWrite ns1 tagN sz vs

/-- The typed array object returned by `ShmemRawArray`: the resolved element
type, the element count, the normalized tag it is backed by, and the
`ShmemBufferWrapper` stored on `obj._buffer`. -/
structure CArrayObj where
  elemType : CType
  length : Nat
  tag : String
  buffer : ShmemBufferWrapper
  deriving DecidableEq

/-- Lines 86-93 of `ShmemRawArray`, from the buffer wrapper on: take the
wrapper construction's outcome, run `get_address` (the mapped-size
assertion) on success, build `obj` with `obj._buffer = buffer`, and run the
element-wise initialization when a sequence was given. -/
def projectArray (tagN : String) (t : CType) (count : Nat) (soi : SizeOrInit)
    (r : Except PyError (Namespace × ShmemBufferWrapper)) :
    Except PyError (Namespace × CArrayObj) :=
  match r with
  | .error e => .error e
  | .ok (ns1, buffer) =>
    match get_address buffer with
    | .error e => .error e
    | .ok _ =>
      .ok (finalNs ns1 tagN (sizeofC t) soi,
        { elemType := t, length := count, tag := tagN, buffer := buffer })

/-- Lines 81-86 of `ShmemRawArray`: fix the element count from
`size_or_initializer` (building the ctypes array type) and construct the
`ShmemBufferWrapper` with `ctypes.sizeof(type_) = count * sizeof(elem)`
bytes. -/
def allocArray (ns : Namespace) (tagN : String) (t : CType) (soi : SizeOrInit)
    (create : Bool) : Except PyError (Namespace × CArrayObj) :=
  match arrayCount soi with
  | .error e => .error e
  | .ok count =>
    projectArray tagN t count soi
      (wrapperInit ns tagN ((count * sizeofC t : Nat) : Int) create)

/-- `ShmemRawArray(typecode_or_type, size_or_initializer, tag, create)`:
validate and normalize the tag, resolve the element type, then allocate and
project the typed array (`allocArray`, `projectArray`). -/
def ShmemRawArray (ns : Namespace) (ta : TypeArg) (soi : SizeOrInit) (tag : String)
    (create : Bool) : Except PyError (Namespace × CArrayObj) :=
  match checkTagNormalize tag with
  | .error e => .error e
  | .ok tagN =>
    match resolveType ta with
    | none => .error .typeError
    | some t => allocArray ns tagN t soi create

/-- The `NP_TO_C_TYPE` table over dtype names (the `np.dtype` object keys
denote the same mapping).  `float16` is present but maps to `None`. -/
def NP_TO_C_TYPE : List (String × Option CType) :=
  [("float64", some .c_double), ("float32", some .c_float), ("float16", none),
   ("int8", some .c_byte), ("int16", some .c_short), ("int32", some .c_int),
   ("int64", some .c_longlong), ("uint8", some .c_ubyte), ("uint16", some .c_ushort),
   ("uint32", some .c_uint), ("uint64", some .c_ulonglong)]

/-- `NP_TO_C_TYPE.get(dtype, None)`: an absent key and the `None` stored
under `float16` both come back as `None`. -/
def npLookup (dtype : String) : Option CType :=
  match (NP_TO_C_TYPE.lookup dtype : Option (Option CType)) with
  | some v => v
  | none => none

/-- The numpy view returned by `NpShmemArray`: shape metadata over the flat
typed array (`reshape` succeeds because the flat length is built as the
shape product). -/
structure NpArray where
  shape : List Nat
  flat : CArrayObj
  deriving DecidableEq

/-- `NpShmemArray(dtype, shape, tag, create)`: look the dtype up, raising
`ValueError` on `None`; allocate `int(np.prod(shape))` elements through
`ShmemRawArray`; present the flat array reshaped. -/
def NpShmemArray (ns : Namespace) (dtype : String) (shape : List Nat) (tag : String)
    (create : Bool) : Except PyError (Namespace × NpArray) :=
  match npLookup dtype with
  | none => .error .unsupportedDType
  | some t =>
    match ShmemRawArray ns (.ty t) (.size ((shape.prod : Nat) : Int)) tag create with
    | .error e => .error e
    | .ok (ns1, shmem) => .ok (ns1, { shape := shape, flat := shmem })

/-- Element `i` of the segment registered under `tag`, read back at element
type `t` (unsigned little-endian interpretation). -/
def readElem (ns : Namespace) (tag : String) (t : CType) (i : Nat) : Option Nat :=
  match lookupNs ns tag with
  | some seg => some (decodeLE (readBytes seg.data (i * sizeofC t) (sizeofC t)))
  | none => none

instance {ε α : Type} [DecidableEq ε] [DecidableEq α] : DecidableEq (Except ε α) := by
  intro x y
  cases x <;> cases y
  case error.error a b =>
    exact if h : a = b then .isTrue (by rw [h]) else .isFalse (fun hc => h (by injection hc))
  case error.ok a b => exact .isFalse (fun hc => Except.noConfusion hc)
  case ok.error a b => exact .isFalse (fun hc => Except.noConfusion hc)
  case ok.ok a b =>
    exact if h : a = b then .isTrue (by rw [h]) else .isFalse (fun hc => h (by injection hc))

/-! ## Byte-level lemmas for the element-wise stores -/

theorem encodeLE_length (w v : Nat) : (encodeLE w v).length = w := by
  induction w generalizing v with
  | zero => rfl
  | succ w ih => simp [encodeLE, ih]


theorem decodeLE_encodeLE (w v : Nat) : decodeLE (encodeLE w v) = v % 256 ^ w := by
  induction w generalizing v with
  | zero => simp [encodeLE, decodeLE, Nat.mod_one]
  | succ w ih =>
    show decodeLE (v % 256 :: encodeLE w (v / 256)) = v % 256 ^ (w + 1)
    simp only [decodeLE, ih]
    rw [Nat.mod_mod_of_dvd v (dvd_refl 256), pow_succ, mul_comm (256 ^ w) 256, Nat.mod_mul]

theorem writeBytes_length (d : List Nat) (off : Nat) (bs : List Nat)
    (h : off + bs.length ≤ d.length) : (writeBytes d off bs).length = d.length := by
  have hoff : off ≤ d.length := le_trans (Nat.le_add_right off bs.length) h
  simp [writeBytes, List.length_take, List.length_drop, Nat.min_eq_left hoff]
  omega

theorem readBytes_writeBytes_self (d : List Nat) (off : Nat) (bs : List Nat)
    (h : off + bs.length ≤ d.length) :
    readBytes (writeBytes d off bs) off bs.length = bs := by
  have hoff : off ≤ d.length := le_trans (Nat.le_add_right off bs.length) h
  have htake : (d.take off).length = off := by
    rw [List.length_take]; exact Nat.min_eq_left hoff
  simp only [readBytes, writeBytes, List.append_assoc]
  rw [List.drop_left' htake]
  exact List.take_left' rfl

theorem take_writeBytes (d : List Nat) (off2 : Nat) (bs : List Nat) (hle : off2 ≤ d.length) :
    (writeBytes d off2 bs).take off2 = d.take off2 := by
  have htake : (d.take off2).length = off2 := by
    rw [List.length_take]; exact Nat.min_eq_left hle
  simp only [writeBytes, List.append_assoc]
  rw [List.take_append_eq_append_take, htake, Nat.sub_self]
  simp [List.take_take]

theorem readBytes_take (d : List Nat) (off w off2 : Nat) (hlt : off + w ≤ off2) :
    readBytes (d.take off2) off w = readBytes d off w := by
  simp only [readBytes]
  rw [List.drop_take, List.take_take, inf_eq_left.mpr (show w ≤ off2 - off by omega)]

theorem readBytes_writeBytes_left (d : List Nat) (off w off2 : Nat) (bs : List Nat)
    (hlt : off + w ≤ off2) (hle : off2 ≤ d.length) :
    readBytes (writeBytes d off2 bs) off w = readBytes d off w := by
  rw [← readBytes_take (writeBytes d off2 bs) off w off2 hlt, take_writeBytes d off2 bs hle,
    readBytes_take d off w off2 hlt]

theorem writeElems_length (sz : Nat) (vs : List Nat) (d : List Nat) (i : Nat)
    (h : (i + vs.length) * sz ≤ d.length) : (writeElems d sz i vs).length = d.length := by
  induction vs generalizing d i with
  | nil => rfl
  | cons v rest ih =>
    have hc : (i + (v :: rest).length) * sz = i * sz + sz + rest.length * sz := by
      simp only [List.length_cons]; ring
    have hc2 : (i + 1 + rest.length) * sz = i * sz + sz + rest.length * sz := by ring
    have henc : (encodeLE sz v).length = sz := encodeLE_length sz v
    have hw : (writeBytes d (i * sz) (encodeLE sz v)).length = d.length :=
      writeBytes_length d (i * sz) (encodeLE sz v) (by rw [henc]; omega)
    show (writeElems (writeBytes d (i * sz) (encodeLE sz v)) sz (i + 1) rest).length = d.length
    rw [ih (writeBytes d (i * sz) (encodeLE sz v)) (i + 1) (by omega)]
    exact hw

theorem readBytes_writeElems_left (sz : Nat) (vs : List Nat) (d : List Nat) (i off w : Nat)
    (hlo : off + w ≤ i * sz) (h : (i + vs.length) * sz ≤ d.length) :
    readBytes (writeElems d sz i vs) off w = readBytes d off w := by
  induction vs generalizing d i with
  | nil => rfl
  | cons v rest ih =>
    have hc : (i + (v :: rest).length) * sz = i * sz + sz + rest.length * sz := by
      simp only [List.length_cons]; ring
    have hc2 : (i + 1 + rest.length) * sz = i * sz + sz + rest.length * sz := by ring
    have hc3 : (i + 1) * sz = i * sz + sz := by ring
    have henc : (encodeLE sz v).length = sz := encodeLE_length sz v
    have hw : (writeBytes d (i * sz) (encodeLE sz v)).length = d.length :=
      writeBytes_length d (i * sz) (encodeLE sz v) (by rw [henc]; omega)
    show readBytes (writeElems (writeBytes d (i * sz) (encodeLE sz v)) sz (i + 1) rest) off w =
      readBytes d off w
    rw [ih (writeBytes d (i * sz) (encodeLE sz v)) (i + 1) (by omega) (by omega)]
    exact readBytes_writeBytes_left d off w (i * sz) (encodeLE sz v) hlo (by omega)

theorem readBytes_writeElems (sz : Nat) (vs : List Nat) (d : List Nat) (i j : Nat)
    (hj : j < vs.length) (h : (i + vs.length) * sz ≤ d.length) :
    readBytes (writeElems d sz i vs) ((i + j) * sz) sz = encodeLE sz (vs.get ⟨j, hj⟩) := by
  induction vs generalizing d i j with
  | nil => exact absurd hj (by simp)
  | cons v rest ih =>
    have hc : (i + (v :: rest).length) * sz = i * sz + sz + rest.length * sz := by
      simp only [List.length_cons]; ring
    have hc2 : (i + 1 + rest.length) * sz = i * sz + sz + rest.length * sz := by ring
    have hc3 : (i + 1) * sz = i * sz + sz := by ring
    have henc : (encodeLE sz v).length = sz := encodeLE_length sz v
    have hw : (writeBytes d (i * sz) (encodeLE sz v)).length = d.length :=
      writeBytes_length d (i * sz) (encodeLE sz v) (by rw [henc]; omega)
    cases j with
    | zero =>
      have hij : (i + 0) * sz = i * sz := by ring
      show readBytes (writeElems (writeBytes d (i * sz) (encodeLE sz v)) sz (i + 1) rest)
          ((i + 0) * sz) sz = encodeLE sz v
      rw [hij,
        readBytes_writeElems_left sz rest _ (i + 1) (i * sz) sz (by omega) (by omega)]
      have hself := readBytes_writeBytes_self d (i * sz) (encodeLE sz v) (by rw [henc]; omega)
      rw [henc] at hself
      exact hself
    | succ j0 =>
      have hj0 : j0 < rest.length := by simpa using hj
      have hstep : (i + (j0 + 1)) * sz = (i + 1 + j0) * sz := by ring
      show readBytes (writeElems (writeBytes d (i * sz) (encodeLE sz v)) sz (i + 1) rest)
          ((i + (j0 + 1)) * sz) sz = encodeLE sz ((v :: rest).get ⟨j0 + 1, hj⟩)
      rw [hstep]
      have hget : (v :: rest).get ⟨j0 + 1, hj⟩ = rest.get ⟨j0, hj0⟩ := rfl
      rw [hget]
      exact ih (writeBytes d (i * sz) (encodeLE sz v)) (i + 1) j0 hj0 (by omega)

/-! ## Characterization lemmas -/

theorem lookupNs_cons_self (tag : String) (seg : Segment) (ns : Namespace) :
    lookupNs ((tag, seg) :: ns) tag = some seg := by
  simp [lookupNs]

theorem removeNs_cons_self (tag : String) (seg : Segment) (ns : Namespace) :
    removeNs ((tag, seg) :: ns) tag = ns := by
  simp [removeNs]

theorem updateNs_cons_self (tag : String) (seg seg2 : Segment) (ns : Namespace) :
    updateNs ((tag, seg) :: ns) tag seg2 = (tag, seg2) :: ns := by
  simp [updateNs]

theorem wrapperInit_true_eq {ns : Namespace} {tag : String} {size : Int}
    (h0 : 0 <= size) (h1 : size < (sysMaxsize : Int)) (hl : lookupNs ns tag = none)
    (hz : size.toNat ≠ 0) :
    wrapperInit ns tag size true =
      .ok ((tag, (Segment.mk size.toNat (List.replicate size.toNat 0))) :: ns,
        (ShmemBufferWrapper.mk (some tag) (some size.toNat) true size.toNat)) := by
  unfold wrapperInit sharedMemory
  rw [if_pos (And.intro h0 h1)]
  simp [hl, hz]

theorem wrapperInit_true_zero {ns : Namespace} {tag : String} {size : Int}
    (h0 : 0 <= size) (h1 : size < (sysMaxsize : Int)) (hl : lookupNs ns tag = none)
    (hz : size.toNat = 0) :
    wrapperInit ns tag size true = .error .mmapEmpty := by
  unfold wrapperInit sharedMemory
  rw [if_pos (And.intro h0 h1)]
  simp [hl, hz]

theorem wrapperInit_false_resize {ns : Namespace} {tag : String} {size : Int} {seg : Segment}
    (h0 : 0 <= size) (h1 : size < (sysMaxsize : Int)) (hl : lookupNs ns tag = some seg)
    (hz : size.toNat ≠ 0) :
    wrapperInit ns tag size false =
      .ok (updateNs ns tag (ftruncateSeg seg size.toNat),
        (ShmemBufferWrapper.mk (some tag) (some size.toNat) false size.toNat)) := by
  unfold wrapperInit sharedMemory
  rw [if_pos (And.intro h0 h1)]
  simp [hl, hz]

theorem wrapperInit_false_zero_live {ns : Namespace} {tag : String} {size : Int}
    {seg : Segment}
    (h0 : 0 <= size) (h1 : size < (sysMaxsize : Int)) (hl : lookupNs ns tag = some seg)
    (hz : size.toNat = 0) (hsz : seg.size ≠ 0) :
    wrapperInit ns tag size false =
      .ok (ns, (ShmemBufferWrapper.mk (some tag) (some seg.size) false size.toNat)) := by
  unfold wrapperInit sharedMemory
  rw [if_pos (And.intro h0 h1)]
  simp [hl, hz, hsz]

theorem wrapperInit_false_zero_empty {ns : Namespace} {tag : String} {size : Int}
    {seg : Segment}
    (h0 : 0 <= size) (h1 : size < (sysMaxsize : Int)) (hl : lookupNs ns tag = some seg)
    (hz : size.toNat = 0) (hsz : seg.size = 0) :
    wrapperInit ns tag size false = .error .mmapEmpty := by
  unfold wrapperInit sharedMemory
  rw [if_pos (And.intro h0 h1)]
  simp [hl, hz, hsz]

theorem wrapperInit_true_exists {ns : Namespace} {tag : String} {size : Int} {seg : Segment}
    (h0 : 0 <= size) (h1 : size < (sysMaxsize : Int)) (hl : lookupNs ns tag = some seg) :
    wrapperInit ns tag size true = .error .alreadyExists := by
  unfold wrapperInit sharedMemory
  rw [if_pos (And.intro h0 h1)]
  simp [hl]

theorem wrapperInit_false_missing {ns : Namespace} {tag : String} {size : Int}
    (h0 : 0 <= size) (h1 : size < (sysMaxsize : Int)) (hl : lookupNs ns tag = none) :
    wrapperInit ns tag size false = .error .notFound := by
  unfold wrapperInit sharedMemory
  rw [if_pos (And.intro h0 h1)]
  simp [hl]

theorem wrapperInit_out_of_range {ns : Namespace} {tag : String} {size : Int} {create : Bool}
    (h : Not (0 <= size /\ size < (sysMaxsize : Int))) :
    wrapperInit ns tag size create = .error .sizeRangeAssert := by
  unfold wrapperInit
  rw [if_neg h]

theorem wrapperInit_ok_true {ns : Namespace} {tag : String} {size : Int}
    {ns1 : Namespace} {w : ShmemBufferWrapper}
    (h : wrapperInit ns tag size true = .ok (ns1, w)) :
    0 <= size /\ size < (sysMaxsize : Int) /\ size.toNat ≠ 0 /\ lookupNs ns tag = none /\
      ns1 = (tag, (Segment.mk size.toNat (List.replicate size.toNat 0))) :: ns /\
      w = (ShmemBufferWrapper.mk (some tag) (some size.toNat) true size.toNat) := by
  by_cases hrange : 0 <= size /\ size < (sysMaxsize : Int)
  case pos =>
    cases hl : lookupNs ns tag with
    | some seg =>
      rw [wrapperInit_true_exists hrange.1 hrange.2 hl] at h
      exact absurd h (by simp)
    | none =>
      by_cases hz : size.toNat = 0
      case pos =>
        rw [wrapperInit_true_zero hrange.1 hrange.2 hl hz] at h
        exact absurd h (by simp)
      case neg =>
        rw [wrapperInit_true_eq hrange.1 hrange.2 hl hz] at h
        simp only [Except.ok.injEq, Prod.mk.injEq] at h
        exact (And.intro hrange.1 (And.intro hrange.2 (And.intro hz (And.intro rfl
          (And.intro h.1.symm h.2.symm)))))
  case neg =>
    rw [wrapperInit_out_of_range hrange] at h
    exact absurd h (by simp)

theorem wrapperInit_ok_false {ns : Namespace} {tag : String} {size : Int}
    {ns1 : Namespace} {w : ShmemBufferWrapper}
    (h : wrapperInit ns tag size false = .ok (ns1, w)) :
    0 <= size /\ size < (sysMaxsize : Int) /\ exists seg, lookupNs ns tag = some seg /\
      ((size.toNat = 0 /\ seg.size ≠ 0 /\ ns1 = ns /\
        w = (ShmemBufferWrapper.mk (some tag) (some seg.size) false size.toNat)) \/
       (size.toNat ≠ 0 /\ ns1 = updateNs ns tag (ftruncateSeg seg size.toNat) /\
        w = (ShmemBufferWrapper.mk (some tag) (some size.toNat) false size.toNat))) := by
  by_cases hrange : 0 <= size /\ size < (sysMaxsize : Int)
  case pos =>
    cases hl : lookupNs ns tag with
    | some seg =>
      by_cases hz : size.toNat = 0
      case pos =>
        by_cases hsz : seg.size = 0
        case pos =>
          rw [wrapperInit_false_zero_empty hrange.1 hrange.2 hl hz hsz] at h
          exact absurd h (by simp)
        case neg =>
          rw [wrapperInit_false_zero_live hrange.1 hrange.2 hl hz hsz] at h
          simp only [Except.ok.injEq, Prod.mk.injEq] at h
          exact (And.intro hrange.1 (And.intro hrange.2 (Exists.intro seg (And.intro rfl
            (Or.inl (And.intro hz (And.intro hsz (And.intro h.1.symm h.2.symm))))))))
      case neg =>
        rw [wrapperInit_false_resize hrange.1 hrange.2 hl hz] at h
        simp only [Except.ok.injEq, Prod.mk.injEq] at h
        exact (And.intro hrange.1 (And.intro hrange.2 (Exists.intro seg (And.intro rfl
          (Or.inr (And.intro hz (And.intro h.1.symm h.2.symm)))))))
    | none =>
      rw [wrapperInit_false_missing hrange.1 hrange.2 hl] at h
      exact absurd h (by simp)
  case neg =>
    rw [wrapperInit_out_of_range hrange] at h
    exact absurd h (by simp)

theorem wrapperInit_error_cases {ns : Namespace} {tag : String} {size : Int} {create : Bool}
    {e : PyError} (h : wrapperInit ns tag size create = .error e) :
    e = .sizeRangeAssert \/ e = .alreadyExists \/ e = .notFound \/ e = .mmapEmpty := by
  by_cases hrange : 0 <= size /\ size < (sysMaxsize : Int)
  case pos =>
    cases create
    case false =>
      cases hl : lookupNs ns tag with
      | some seg =>
        by_cases hz : size.toNat = 0
        case pos =>
          by_cases hsz : seg.size = 0
          case pos =>
            rw [wrapperInit_false_zero_empty hrange.1 hrange.2 hl hz hsz] at h
            simp only [Except.error.injEq] at h
            exact Or.inr (Or.inr (Or.inr h.symm))
          case neg =>
            rw [wrapperInit_false_zero_live hrange.1 hrange.2 hl hz hsz] at h
            exact absurd h (by simp)
        case neg =>
          rw [wrapperInit_false_resize hrange.1 hrange.2 hl hz] at h
          exact absurd h (by simp)
      | none =>
        rw [wrapperInit_false_missing hrange.1 hrange.2 hl] at h
        simp only [Except.error.injEq] at h
        exact Or.inr (Or.inr (Or.inl h.symm))
    case true =>
      cases hl : lookupNs ns tag with
      | some seg =>
        rw [wrapperInit_true_exists hrange.1 hrange.2 hl] at h
        simp only [Except.error.injEq] at h
        exact Or.inr (Or.inl h.symm)
      | none =>
        by_cases hz : size.toNat = 0
        case pos =>
          rw [wrapperInit_true_zero hrange.1 hrange.2 hl hz] at h
          simp only [Except.error.injEq] at h
          exact Or.inr (Or.inr (Or.inr h.symm))
        case neg =>
          rw [wrapperInit_true_eq hrange.1 hrange.2 hl hz] at h
          exact absurd h (by simp)
  case neg =>
    rw [wrapperInit_out_of_range hrange] at h
    simp only [Except.error.injEq] at h
    exact Or.inl h.symm


theorem get_address_error_cases {w : ShmemBufferWrapper} {e : PyError}
    (h : get_address w = .error e) : e = .sizeMismatchAssert \/ e = .typeError := by
  unfold get_address at h
  split at h
  next =>
    split at h
    next => simp at h
    next => simp at h; exact Or.inl h.symm
  next => simp at h; exact Or.inr h.symm

theorem get_address_ok {w : ShmemBufferWrapper} {len : Nat} (hm : w.map = some len)
    (hs : len = w.size) : get_address w = .ok () := by
  unfold get_address
  rw [hm]
  simp [hs]

theorem arrayCount_error_cases {soi : SizeOrInit} {e : PyError}
    (h : arrayCount soi = .error e) : e = .negLength := by
  unfold arrayCount at h
  split at h
  next =>
    split at h
    next => simp at h; exact h.symm
    next => simp at h
  next => simp at h

theorem checkTagNormalize_invalid {tag : String}
    (h : tag.toList.all valid_chars = false) :
    checkTagNormalize tag = .error .invalidTag := by
  unfold checkTagNormalize
  rw [h]
  rfl

theorem checkTagNormalize_cons {tag : String} {c : Char} {rest : List Char}
    (hc : tag.toList = c :: rest) (hv : tag.toList.all valid_chars = true) :
    checkTagNormalize tag = .ok (if c = '/' then tag else "/" ++ tag) := by
  unfold checkTagNormalize
  rw [hv, hc]
  simp only [if_true]
  by_cases hcc : c = '/'
  case pos => simp [hcc]
  case neg => simp [hcc]

theorem checkTagNormalize_ok_cases {tag : String} {tagN : String}
    (h : checkTagNormalize tag = .ok tagN) :
    tag.toList.all valid_chars = true /\
      exists c, exists rest, tag.toList = c :: rest /\
        tagN = (if c = '/' then tag else "/" ++ tag) := by
  by_cases hv : tag.toList.all valid_chars = true
  case pos =>
    by_cases hnil : tag.toList = []
    case pos =>
      unfold checkTagNormalize at h
      rw [hv, hnil] at h
      exact absurd h (by simp)
    case neg =>
      obtain ⟨c, rest, hc⟩ := List.exists_cons_of_ne_nil hnil
      rw [checkTagNormalize_cons hc hv] at h
      simp only [Except.ok.injEq] at h
      exact (And.intro hv (Exists.intro c (Exists.intro rest (And.intro hc h.symm))))
  case neg =>
    rw [checkTagNormalize_invalid (Bool.not_eq_true _ |>.mp hv)] at h
    exact absurd h (by simp)

theorem checkTagNormalize_error_cases {tag : String} {e : PyError}
    (h : checkTagNormalize tag = .error e) : e = .invalidTag \/ e = .indexError := by
  unfold checkTagNormalize at h
  split at h
  next =>
    split at h
    next => simp at h; exact Or.inr h.symm
    next => simp at h
  next => simp at h; exact Or.inl h.symm

theorem ShmemRawArray_tag_error {ns : Namespace} {ta : TypeArg} {soi : SizeOrInit}
    {tag : String} {create : Bool} {e : PyError}
    (hc : checkTagNormalize tag = .error e) :
    ShmemRawArray ns ta soi tag create = .error e := by
  simp only [ShmemRawArray, hc]

theorem ShmemRawArray_type_error {ns : Namespace} {ta : TypeArg} {soi : SizeOrInit}
    {tag : String} {create : Bool} {tagN : String}
    (hc : checkTagNormalize tag = .ok tagN) (hr : resolveType ta = none) :
    ShmemRawArray ns ta soi tag create = .error .typeError := by
  simp only [ShmemRawArray, hc, hr]

theorem ShmemRawArray_count_error {ns : Namespace} {ta : TypeArg} {soi : SizeOrInit}
    {tag : String} {create : Bool} {tagN : String} {t : CType} {e : PyError}
    (hc : checkTagNormalize tag = .ok tagN) (hr : resolveType ta = some t)
    (ha : arrayCount soi = .error e) :
    ShmemRawArray ns ta soi tag create = .error e := by
  simp only [ShmemRawArray, hc, hr, allocArray, ha]

theorem ShmemRawArray_wrapper_error {ns : Namespace} {ta : TypeArg} {soi : SizeOrInit}
    {tag : String} {create : Bool} {tagN : String} {t : CType} {count : Nat} {e : PyError}
    (hc : checkTagNormalize tag = .ok tagN) (hr : resolveType ta = some t)
    (ha : arrayCount soi = .ok count)
    (hw : wrapperInit ns tagN ((count * sizeofC t : Nat) : Int) create = .error e) :
    ShmemRawArray ns ta soi tag create = .error e := by
  simp only [ShmemRawArray, hc, hr, allocArray, ha]
  rw [hw]
  simp only [projectArray]

theorem ShmemRawArray_address_error {ns : Namespace} {ta : TypeArg} {soi : SizeOrInit}
    {tag : String} {create : Bool} {tagN : String} {t : CType} {count : Nat}
    {ns1 : Namespace} {buffer : ShmemBufferWrapper} {e : PyError}
    (hc : checkTagNormalize tag = .ok tagN) (hr : resolveType ta = some t)
    (ha : arrayCount soi = .ok count)
    (hw : wrapperInit ns tagN ((count * sizeofC t : Nat) : Int) create = .ok (ns1, buffer))
    (hg : get_address buffer = .error e) :
    ShmemRawArray ns ta soi tag create = .error e := by
  simp only [ShmemRawArray, hc, hr, allocArray, ha]
  rw [hw]
  simp only [projectArray, hg]

theorem ShmemRawArray_eq {ns : Namespace} {ta : TypeArg} {soi : SizeOrInit}
    {tag : String} {create : Bool} {tagN : String} {t : CType} {count : Nat}
    {ns1 : Namespace} {buffer : ShmemBufferWrapper}
    (hc : checkTagNormalize tag = .ok tagN) (hr : resolveType ta = some t)
    (ha : arrayCount soi = .ok count)
    (hw : wrapperInit ns tagN ((count * sizeofC t : Nat) : Int) create = .ok (ns1, buffer))
    (hg : get_address buffer = .ok ()) :
    ShmemRawArray ns ta soi tag create =
      .ok (finalNs ns1 tagN (sizeofC t) soi, CArrayObj.mk t count tagN buffer) := by
  simp only [ShmemRawArray, hc, hr, allocArray, ha]
  rw [hw]
  simp only [projectArray, hg]

theorem ShmemRawArray_ok {ns : Namespace} {ta : TypeArg} {soi : SizeOrInit}
    {tag : String} {create : Bool} {ns2 : Namespace} {obj : CArrayObj}
    (h : ShmemRawArray ns ta soi tag create = .ok (ns2, obj)) :
    exists tagN t count ns1 buffer,
      checkTagNormalize tag = .ok tagN /\ resolveType ta = some t /\
      arrayCount soi = .ok count /\
      wrapperInit ns tagN ((count * sizeofC t : Nat) : Int) create = .ok (ns1, buffer) /\
      get_address buffer = .ok () /\
      ns2 = finalNs ns1 tagN (sizeofC t) soi /\
      obj = CArrayObj.mk t count tagN buffer := by
  cases hc : checkTagNormalize tag with
  | error e =>
    rw [ShmemRawArray_tag_error hc] at h
    exact absurd h (by simp)
  | ok tagN =>
    cases hr : resolveType ta with
    | none =>
      rw [ShmemRawArray_type_error hc hr] at h
      exact absurd h (by simp)
    | some t =>
      cases ha : arrayCount soi with
      | error e =>
        rw [ShmemRawArray_count_error hc hr ha] at h
        exact absurd h (by simp)
      | ok count =>
        cases hw : wrapperInit ns tagN ((count * sizeofC t : Nat) : Int) create with
        | error e =>
          rw [ShmemRawArray_wrapper_error hc hr ha hw] at h
          exact absurd h (by simp)
        | ok p =>
          obtain ⟨ns1, buffer⟩ := p
          cases hg : get_address buffer with
          | error e =>
            rw [ShmemRawArray_address_error hc hr ha hw hg] at h
            exact absurd h (by simp)
          | ok u =>
            cases u
            rw [ShmemRawArray_eq hc hr ha hw hg] at h
            simp only [Except.ok.injEq, Prod.mk.injEq] at h
            exact ⟨tagN, t, count, ns1, buffer, rfl, rfl, rfl, hw, hg,
              h.1.symm, h.2.symm⟩

theorem ShmemRawArray_error_of_tag_ok {ns : Namespace} {ta : TypeArg} {soi : SizeOrInit}
    {tag : String} {create : Bool} {tagN : String} {e : PyError}
    (hc : checkTagNormalize tag = .ok tagN)
    (h : ShmemRawArray ns ta soi tag create = .error e) :
    e = .typeError \/ e = .negLength \/ e = .sizeRangeAssert \/ e = .alreadyExists \/
      e = .notFound \/ e = .sizeMismatchAssert \/ e = .mmapEmpty := by
  cases hr : resolveType ta with
  | none =>
    have he := (@ShmemRawArray_type_error ns ta soi tag create tagN hc hr).symm.trans h
    simp only [Except.error.injEq] at he
    exact Or.inl he.symm
  | some t =>
    cases ha : arrayCount soi with
    | error e2 =>
      have he := (@ShmemRawArray_count_error ns ta soi tag create tagN t e2
        hc hr ha).symm.trans h
      simp only [Except.error.injEq] at he
      have := arrayCount_error_cases ha
      exact Or.inr (Or.inl (he ▸ this))
    | ok count =>
      cases hw : wrapperInit ns tagN ((count * sizeofC t : Nat) : Int) create with
      | error e2 =>
        have he := (@ShmemRawArray_wrapper_error ns ta soi tag create tagN t count e2
          hc hr ha hw).symm.trans h
        simp only [Except.error.injEq] at he
        rcases wrapperInit_error_cases hw with h1 | h1 | h1 | h1
        case inl => exact Or.inr (Or.inr (Or.inl (he ▸ h1)))
        case inr.inl => exact Or.inr (Or.inr (Or.inr (Or.inl (he ▸ h1))))
        case inr.inr.inl => exact Or.inr (Or.inr (Or.inr (Or.inr (Or.inl (he ▸ h1)))))
        case inr.inr.inr =>
          exact Or.inr (Or.inr (Or.inr (Or.inr (Or.inr (Or.inr (he ▸ h1))))))
      | ok p =>
        obtain ⟨ns1, buffer⟩ := p
        cases hg : get_address buffer with
        | error e2 =>
          have he := (@ShmemRawArray_address_error ns ta soi tag create tagN t count
            ns1 buffer e2 hc hr ha hw hg).symm.trans h
          simp only [Except.error.injEq] at he
          rcases get_address_error_cases hg with h1 | h1
          case inl => exact Or.inr (Or.inr (Or.inr (Or.inr (Or.inr (Or.inl (he ▸ h1))))))
          case inr => exact Or.inl (he ▸ h1)
        | ok u =>
          cases u
          have he := (ShmemRawArray_eq hc hr ha hw hg).symm.trans h
          exact absurd he (by simp)

theorem get_address_ok_map {w : ShmemBufferWrapper} (h : get_address w = .ok ()) :
    w.map = some w.size := by
  unfold get_address at h
  cases hm : w.map with
  | none => rw [hm] at h; exact absurd h (by simp)
  | some len =>
    rw [hm] at h
    by_cases hs : len = w.size
    case pos => exact congrArg some hs
    case neg => simp [hs] at h

theorem get_address_mismatch {w : ShmemBufferWrapper} {len : Nat} (hm : w.map = some len)
    (hne : Not (len = w.size)) : get_address w = .error .sizeMismatchAssert := by
  unfold get_address
  rw [hm]
  simp [hne]

theorem lookupNs_updateNs_self {ns : Namespace} {tag : String} {seg seg2 : Segment}
    (h : lookupNs ns tag = some seg) :
    lookupNs (updateNs ns tag seg2) tag = some seg2 := by
  induction ns with
  | nil => simp [lookupNs] at h
  | cons kv rest ih =>
    obtain ⟨k, s0⟩ := kv
    by_cases hk : k = tag
    case pos => simp [updateNs, lookupNs, hk]
    case neg =>
      simp only [lookupNs, if_neg hk] at h
      simp only [updateNs, if_neg hk, lookupNs]
      exact ih h

theorem objInitWrite_lookup {ns : Namespace} {tag : String} {sz : Nat} {vs : List Nat}
    {seg : Segment} (h : lookupNs ns tag = some seg) :
    lookupNs (objInitWrite ns tag sz vs) tag =
      some (Segment.mk seg.size (writeElems seg.data sz 0 vs)) := by
  unfold objInitWrite
  rw [h]
  exact lookupNs_updateNs_self h

theorem NpShmemArray_dtype_error {ns : Namespace} {dtype : String} {shape : List Nat}
    {tag : String} {create : Bool} (hd : npLookup dtype = none) :
    NpShmemArray ns dtype shape tag create = .error .unsupportedDType := by
  simp only [NpShmemArray, hd]

theorem NpShmemArray_raw_error {ns : Namespace} {dtype : String} {shape : List Nat}
    {tag : String} {create : Bool} {t : CType} {e : PyError}
    (hd : npLookup dtype = some t)
    (hres : ShmemRawArray ns (.ty t) (.size ((shape.prod : Nat) : Int)) tag create = .error e) :
    NpShmemArray ns dtype shape tag create = .error e := by
  simp only [NpShmemArray, hd, hres]

theorem NpShmemArray_raw_ok {ns : Namespace} {dtype : String} {shape : List Nat}
    {tag : String} {create : Bool} {t : CType} {ns1 : Namespace} {shmem : CArrayObj}
    (hd : npLookup dtype = some t)
    (hres : ShmemRawArray ns (.ty t) (.size ((shape.prod : Nat) : Int)) tag create =
      .ok (ns1, shmem)) :
    NpShmemArray ns dtype shape tag create = .ok (ns1, NpArray.mk shape shmem) := by
  simp only [NpShmemArray, hd, hres]

theorem NpShmemArray_ok {ns : Namespace} {dtype : String} {shape : List Nat}
    {tag : String} {create : Bool} {ns2 : Namespace} {arr : NpArray}
    (h : NpShmemArray ns dtype shape tag create = .ok (ns2, arr)) :
    exists t, npLookup dtype = some t /\
      ShmemRawArray ns (.ty t) (.size ((shape.prod : Nat) : Int)) tag create =
        .ok (ns2, arr.flat) /\
      arr.shape = shape := by
  cases hd : npLookup dtype with
  | none =>
    rw [NpShmemArray_dtype_error hd] at h
    exact absurd h (by simp)
  | some t =>
    cases hres : ShmemRawArray ns (.ty t) (.size ((shape.prod : Nat) : Int)) tag create with
    | error e =>
      rw [NpShmemArray_raw_error hd hres] at h
      exact absurd h (by simp)
    | ok p =>
      obtain ⟨ns1, shmem⟩ := p
      rw [NpShmemArray_raw_ok hd hres] at h
      simp only [Except.ok.injEq, Prod.mk.injEq] at h
      obtain ⟨h1, h2⟩ := h
      subst h1
      subst h2
      exact ⟨t, rfl, hres, rfl⟩

theorem ShmemRawArray_ne_unsupported {ns : Namespace} {ta : TypeArg} {soi : SizeOrInit}
    {tag : String} {create : Bool} :
    Not (ShmemRawArray ns ta soi tag create = .error .unsupportedDType) := by
  intro h
  cases hc : checkTagNormalize tag with
  | error e =>
    have he := (@ShmemRawArray_tag_error ns ta soi tag create e hc).symm.trans h
    simp only [Except.error.injEq] at he
    rcases checkTagNormalize_error_cases hc with h1 | h1
    case inl => rw [h1] at he; exact PyError.noConfusion he
    case inr => rw [h1] at he; exact PyError.noConfusion he
  | ok tagN =>
    rcases ShmemRawArray_error_of_tag_ok hc h with h1 | h1 | h1 | h1 | h1 | h1 | h1 <;>
      exact PyError.noConfusion h1

/-! ## Claim theorems -/

/-- C1: with the creator flag set, segment-handle construction requests
exclusive creation and fails with `alreadyExists` whenever the tag is
already live; with the flag unset it opens an existing segment and fails
with `notFound` when the tag is not live — including a tag that existed but
was unlinked by its owner handle's teardown.  In both failure cases the
`Except` carries only the error, so no handle is returned. -/
theorem create_excl_open_existing (ns : Namespace) (tag : String) (size size2 : Int)
    (h0 : 0 <= size) (h1 : size < (sysMaxsize : Int))
    (h2 : 0 <= size2) (h3 : size2 < (sysMaxsize : Int)) :
    ((lookupNs ns tag).isSome → wrapperInit ns tag size true = .error .alreadyExists) /\
    (lookupNs ns tag = none → wrapperInit ns tag size false = .error .notFound) /\
    (∀ ns1 w, wrapperInit ns tag size true = .ok (ns1, w) →
      wrapperInit (wrapperDel ns1 w).ns tag size2 false = .error .notFound) := by
  refine ⟨?_, ?_, ?_⟩
  · intro hs
    obtain ⟨seg, hseg⟩ := Option.isSome_iff_exists.mp hs
    exact wrapperInit_true_exists h0 h1 hseg
  · intro hnone
    exact wrapperInit_false_missing h0 h1 hnone
  · intro ns1 w h
    obtain ⟨_, _, hz, hnone, hns1, hw⟩ := wrapperInit_ok_true h
    subst hns1
    subst hw
    have hdel : (wrapperDel
        ((tag, Segment.mk size.toNat (List.replicate size.toNat 0)) :: ns)
        (ShmemBufferWrapper.mk (some tag) (some size.toNat) true size.toNat)).ns = ns := by
      simp [wrapperDel, shmUnlink, lookupNs_cons_self, removeNs_cons_self]
    rw [hdel]
    exact wrapperInit_false_missing h2 h3 hnone

theorem create_excl_open_existing_witness :
    wrapperInit [("/t", Segment.mk 4 [0, 0, 0, 0])] "/t" 4 true = .error .alreadyExists /\
    wrapperInit [] "/t" 4 false = .error .notFound /\
    wrapperInit
      (wrapperDel [("/t", Segment.mk 4 [0, 0, 0, 0])]
        (ShmemBufferWrapper.mk (some "/t") (some 4) true 4)).ns "/t" 4 false =
      .error .notFound := by
  refine ⟨?_, ?_, ?_⟩
  · exact (create_excl_open_existing [("/t", Segment.mk 4 [0, 0, 0, 0])] "/t" 4 4
      (by decide) (by decide) (by decide) (by decide)).1 (by decide)
  · exact (create_excl_open_existing [] "/t" 4 4
      (by decide) (by decide) (by decide) (by decide)).2.1 (by decide)
  · exact (create_excl_open_existing [] "/t" 4 4
      (by decide) (by decide) (by decide) (by decide)).2.2
      [("/t", Segment.mk 4 [0, 0, 0, 0])]
      (ShmemBufferWrapper.mk (some "/t") (some 4) true 4) (by decide)

/-- C2: tearing down a fully constructed handle always closes the mapping
(`unmapped = true`); it attempts the kernel unlink exactly when the handle
is the owner, i.e. exactly when it was constructed with the creator flag;
for an owner, a live name is removed with an empty log, while an
already-unlinked name leaves the namespace unchanged and only logs the
swallowed `ExistentialError` — `wrapperDel` is a total function, so no
teardown failure propagates to the caller. -/
theorem destroy_unmaps_unlinks_owner (ns ns2 : Namespace) (tag : String) (size : Int)
    (create : Bool) (ns1 : Namespace) (w : ShmemBufferWrapper)
    (h : wrapperInit ns tag size create = .ok (ns1, w)) :
    (wrapperDel ns2 w).unmapped = true /\
    ((wrapperDel ns2 w).unlinkAttempted = true ↔ create = true) /\
    (create = false → wrapperDel ns2 w = DelResult.mk ns2 true false []) /\
    (create = true → (lookupNs ns2 tag).isSome →
      wrapperDel ns2 w = DelResult.mk (removeNs ns2 tag) true true []) /\
    (create = true → lookupNs ns2 tag = none →
      wrapperDel ns2 w =
        DelResult.mk ns2 true true ["Exception ignored in __del__"]) := by
  cases create
  case false =>
    obtain ⟨_, _, seg, hseg, hdisj⟩ := wrapperInit_ok_false h
    rcases hdisj with ⟨hz, hsz, hns1, hw⟩ | ⟨hz, hns1, hw⟩
    · subst hw
      exact ⟨rfl, by simp [wrapperDel], fun _ => rfl, by simp, by simp⟩
    · subst hw
      exact ⟨rfl, by simp [wrapperDel], fun _ => rfl, by simp, by simp⟩
  case true =>
    obtain ⟨_, _, hz, hnone, hns1, hw⟩ := wrapperInit_ok_true h
    subst hw
    cases hl : lookupNs ns2 tag with
    | some seg =>
      have hred : wrapperDel ns2
          (ShmemBufferWrapper.mk (some tag) (some size.toNat) true size.toNat) =
          DelResult.mk (removeNs ns2 tag) true true [] := by
        simp [wrapperDel, shmUnlink, hl]
      rw [hred]
      refine ⟨rfl, by simp, by simp, fun _ _ => rfl, ?_⟩
      intro _ hn2
      exact absurd hn2 (by simp)
    | none =>
      have hred : wrapperDel ns2
          (ShmemBufferWrapper.mk (some tag) (some size.toNat) true size.toNat) =
          DelResult.mk ns2 true true ["Exception ignored in __del__"] := by
        simp [wrapperDel, shmUnlink, hl]
      rw [hred]
      refine ⟨rfl, by simp, by simp, ?_, fun _ _ => rfl⟩
      intro _ hs
      exact absurd hs (by simp)

theorem destroy_unmaps_unlinks_owner_witness :
    (wrapperDel [("/t", Segment.mk 4 (List.replicate 4 0))]
        (ShmemBufferWrapper.mk (some "/t") (some 4) true 4)).unmapped = true /\
    wrapperDel [("/t", Segment.mk 4 (List.replicate 4 0))]
        (ShmemBufferWrapper.mk (some "/t") (some 4) true 4) =
      DelResult.mk [] true true [] /\
    wrapperDel [] (ShmemBufferWrapper.mk (some "/t") (some 4) true 4) =
      DelResult.mk [] true true ["Exception ignored in __del__"] := by
  have h1 := destroy_unmaps_unlinks_owner [] [("/t", Segment.mk 4 (List.replicate 4 0))]
    "/t" 4 true [("/t", Segment.mk 4 (List.replicate 4 0))]
    (ShmemBufferWrapper.mk (some "/t") (some 4) true 4) (by decide)
  have h2 := destroy_unmaps_unlinks_owner [] [] "/t" 4 true
    [("/t", Segment.mk 4 (List.replicate 4 0))]
    (ShmemBufferWrapper.mk (some "/t") (some 4) true 4) (by decide)
  exact ⟨h1.1, h1.2.2.2.1 rfl (by decide), h2.2.2.2.2 rfl (by decide)⟩

/-- C5: a tag containing any character outside the valid set fails the
`assert frozenset(tag).issubset(valid_chars)` check — modelled as the
`invalidTag` error — before any namespace interaction (the error return
carries no namespace, so nothing is acquired); a non-empty tag whose
characters all lie in the set never produces `invalidTag`. -/
theorem tag_char_validation (ns : Namespace) (ta : TypeArg) (soi : SizeOrInit)
    (tag : String) (create : Bool) :
    (tag.toList.all valid_chars = false →
      ShmemRawArray ns ta soi tag create = .error .invalidTag) /\
    (tag.toList.all valid_chars = true → tag ≠ "" →
      ShmemRawArray ns ta soi tag create ≠ .error .invalidTag) := by
  constructor
  · intro hv
    exact ShmemRawArray_tag_error (checkTagNormalize_invalid hv)
  · intro hv hne h
    have hnil : tag.toList ≠ [] := fun h0 => hne (String.ext h0)
    obtain ⟨c, rest, hc⟩ := List.exists_cons_of_ne_nil hnil
    have hok := checkTagNormalize_cons hc hv
    rcases ShmemRawArray_error_of_tag_ok hok h with h1 | h1 | h1 | h1 | h1 | h1 | h1 <;>
      exact PyError.noConfusion h1

theorem tag_char_validation_witness :
    ShmemRawArray [] (.ty .c_int) (.size 1) "a$b" true = .error .invalidTag /\
    ShmemRawArray [] (.ty .c_int) (.size 1) "ab" true ≠ .error .invalidTag :=
  ⟨(tag_char_validation [] (.ty .c_int) (.size 1) "a$b" true).1 (by decide),
   (tag_char_validation [] (.ty .c_int) (.size 1) "ab" true).2 (by decide) (by decide)⟩

/-- C6: the normalization of lines 77-78 prefixes a leading slash exactly
when the first character is not already a slash, and is idempotent: for a
valid non-empty tag without a leading slash, normalizing the tag and
normalizing its slash-prefixed form produce the same normalized name, so a
create with tag "foo" and an open with tag "/foo" resolve to the same
segment name. -/
theorem tag_normalize_slash (tag : String) (c : Char) (rest : List Char)
    (hc : tag.toList = c :: rest) (hv : tag.toList.all valid_chars = true) :
    (c ≠ '/' → checkTagNormalize tag = .ok ("/" ++ tag) /\
      checkTagNormalize ("/" ++ tag) = .ok ("/" ++ tag)) /\
    (c = '/' → checkTagNormalize tag = .ok tag) := by
  have hlist : ("/" ++ tag).toList = '/' :: tag.toList := by
    show ("/" ++ tag).data = '/' :: tag.data
    rw [String.data_append]
    rfl
  have hv2 : ("/" ++ tag).toList.all valid_chars = true := by
    rw [hlist]
    simp only [List.all_cons, hv]
    decide
  constructor
  · intro hcne
    constructor
    · rw [checkTagNormalize_cons hc hv, if_neg hcne]
    · rw [checkTagNormalize_cons hlist hv2, if_pos rfl]
  · intro hceq
    rw [checkTagNormalize_cons hc hv, if_pos hceq]

theorem tag_normalize_slash_witness :
    checkTagNormalize "foo" = .ok ("/" ++ "foo") /\
    checkTagNormalize ("/" ++ "foo") = .ok ("/" ++ "foo") := by
  have h := tag_normalize_slash "foo" 'f' ['o', 'o'] (by decide) (by decide)
  exact ⟨(h.1 (by decide)).1, (h.1 (by decide)).2⟩

/-- C7 (code bug): the `assert 0 <= size < sys.maxsize` accepts exactly
the byte sizes in `[0, sysMaxsize)` — out-of-range sizes are rejected with
the range error — but the spec's zero-length round-trip does not hold of
the code: a create with byte size 0 passes the assert (the code's own
assertion declares 0 a legal size) and then fails at line 58, where
`mmap.mmap(fd, 0)` on the fresh zero-length segment raises `ValueError`
("cannot mmap an empty file"); an open of a zero-length segment with
expected size 0 fails the same way, so a zero-length segment never
round-trips. -/
theorem zero_length_create_fails_mmap (ns : Namespace) (tag : String) (size : Int)
    (create : Bool) :
    (Not (0 <= size /\ size < (sysMaxsize : Int)) →
      wrapperInit ns tag size create = .error .sizeRangeAssert) /\
    (lookupNs ns tag = none → wrapperInit ns tag 0 true = .error .mmapEmpty) /\
    wrapperInit ns tag 0 true ≠ .error .sizeRangeAssert /\
    (∀ seg, lookupNs ns tag = some seg → seg.size = 0 →
      wrapperInit ns tag 0 false = .error .mmapEmpty) := by
  refine ⟨wrapperInit_out_of_range, ?_, ?_, ?_⟩
  · intro hl
    exact wrapperInit_true_zero (by decide) (by decide) hl rfl
  · intro hcontra
    cases hl : lookupNs ns tag with
    | some seg =>
      rw [@wrapperInit_true_exists ns tag 0 seg (by decide) (by decide) hl] at hcontra
      simp at hcontra
    | none =>
      rw [@wrapperInit_true_zero ns tag 0 (by decide) (by decide) hl rfl] at hcontra
      simp at hcontra
  · intro seg hl hsz
    exact wrapperInit_false_zero_empty (by decide) (by decide) hl rfl hsz

theorem zero_length_create_fails_mmap_witness :
    wrapperInit [] "/z" 0 true = .error .mmapEmpty /\
    wrapperInit [("/z", Segment.mk 0 [])] "/z" 0 false = .error .mmapEmpty := by
  have h := zero_length_create_fails_mmap [] "/z" 0 true
  have h2 := zero_length_create_fails_mmap [("/z", Segment.mk 0 [])] "/z" 0 false
  exact ⟨h.2.1 (by decide), h2.2.2.2 (Segment.mk 0 []) (by decide) rfl⟩


/-- C10: every create or open call with the empty tag fails before any
namespace interaction, but not with `invalidTag`: the character check
passes vacuously (`"".toList.all valid_chars = true`) and the subsequent
`tag[0]` access raises an `IndexError`, so `ShmemRawArray` returns the
`indexError` outcome for any namespace, element type, size argument and
creator flag, acquiring nothing. -/
theorem empty_tag_fails_index (ns : Namespace) (ta : TypeArg) (soi : SizeOrInit)
    (create : Bool) :
    ShmemRawArray ns ta soi "" create = .error .indexError /\
    "".toList.all valid_chars = true /\
    checkTagNormalize "" = .error .indexError :=
  ⟨rfl, rfl, rfl⟩

/-- C4: the shaped numeric view fails with the `unsupportedDType` error
exactly when the dtype has no element-type mapping through
`NP_TO_C_TYPE.get`; `float16` is present in the table but mapped to `None`,
so it always produces this error; a dtype with a mapping never produces it
(no silent substitution ever yields this error for a supported code, and no
other stage raises it). -/
theorem unsupported_dtype_rejected (ns : Namespace) (dtype : String) (shape : List Nat)
    (tag : String) (create : Bool) :
    (npLookup dtype = none →
      NpShmemArray ns dtype shape tag create = .error .unsupportedDType) /\
    (∀ t, npLookup dtype = some t →
      NpShmemArray ns dtype shape tag create ≠ .error .unsupportedDType) /\
    npLookup "float16" = none := by
  refine ⟨NpShmemArray_dtype_error, ?_, by decide⟩
  intro t hd hcontra
  cases hres : ShmemRawArray ns (.ty t) (.size ((shape.prod : Nat) : Int)) tag create with
  | error e =>
    have he := (NpShmemArray_raw_error hd hres).symm.trans hcontra
    simp only [Except.error.injEq] at he
    rw [he] at hres
    exact ShmemRawArray_ne_unsupported hres
  | ok p =>
    obtain ⟨ns1, shmem⟩ := p
    have he := (NpShmemArray_raw_ok hd hres).symm.trans hcontra
    exact Except.noConfusion he

theorem unsupported_dtype_rejected_witness :
    NpShmemArray [] "float16" [2, 3] "/t" true = .error .unsupportedDType /\
    NpShmemArray [] "int32" [2, 3] "/t" true ≠ .error .unsupportedDType :=
  ⟨(unsupported_dtype_rejected [] "float16" [2, 3] "/t" true).1 (by decide),
   (unsupported_dtype_rejected [] "int32" [2, 3] "/t" true).2.1 .c_int (by decide)⟩

/-- C8 counterexample: opening an existing 8-byte segment as 3 elements of
`c_int` (expected 12 bytes) does not fail with the size-mismatch assertion
— posix_ipc `ftruncate`s the kernel object to the 12 requested bytes
during the open, so `get_address` compares 12 with 12 and a typed view is
returned over the silently resized segment. -/
theorem open_mismatch_not_detected :
    ShmemRawArray [("/t", Segment.mk 8 (List.replicate 8 0))] (.ty .c_int) (.size 3)
      "/t" false ≠ .error .sizeMismatchAssert /\
    ShmemRawArray [("/t", Segment.mk 8 (List.replicate 8 0))] (.ty .c_int) (.size 3)
      "/t" false =
      .ok ([("/t", Segment.mk 12 (List.replicate 12 0))],
        CArrayObj.mk .c_int 3 "/t"
          (ShmemBufferWrapper.mk (some "/t") (some 12) false 12)) := by
  constructor
  · decide
  · decide

/-- C8 (amended): opening an existing segment does not verify its size
against the expectation computed from element type and count: for any
non-zero expected byte size, posix_ipc resizes the kernel object to that
expectation (`ftruncate` on open), the mapped size then equals `self.size`
by construction, the `get_address` assertion passes vacuously, and a typed
view is returned — the open trusts the caller and no size-mismatch failure
occurs on this path, whatever the segment's prior size. -/
theorem open_resizes_to_expected (ns : Namespace) (t : CType) (n : Int) (tag : String)
    (seg : Segment) (rest : List Char)
    (hn : 0 <= n) (hrange : ((n.toNat * sizeofC t : Nat) : Int) < (sysMaxsize : Int))
    (hv : tag.toList.all valid_chars = true)
    (hc : tag.toList = '/' :: rest)
    (hl : lookupNs ns tag = some seg)
    (hnz : n.toNat * sizeofC t ≠ 0) :
    ShmemRawArray ns (.ty t) (.size n) tag false =
      .ok (updateNs ns tag (ftruncateSeg seg (n.toNat * sizeofC t)),
        CArrayObj.mk t n.toNat tag
          (ShmemBufferWrapper.mk (some tag) (some (n.toNat * sizeofC t)) false
            (n.toNat * sizeofC t))) /\
    ShmemRawArray ns (.ty t) (.size n) tag false ≠ .error .sizeMismatchAssert := by
  have hok : checkTagNormalize tag = .ok tag := by
    rw [checkTagNormalize_cons hc hv]
    simp
  have hcount : arrayCount (.size n) = .ok n.toNat := by
    simp only [arrayCount]
    rw [if_neg (not_lt.mpr hn)]
  have hz : ((n.toNat * sizeofC t : Nat) : Int).toNat ≠ 0 := by
    rw [Int.toNat_natCast]
    exact hnz
  have hwrap := @wrapperInit_false_resize ns tag ((n.toNat * sizeofC t : Nat) : Int) seg
    (Int.natCast_nonneg _) hrange hl hz
  have hga : get_address (ShmemBufferWrapper.mk (some tag)
      (some ((n.toNat * sizeofC t : Nat) : Int).toNat) false
      ((n.toNat * sizeofC t : Nat) : Int).toNat) = .ok () :=
    get_address_ok rfl rfl
  have hres := ShmemRawArray_eq hok (show resolveType (.ty t) = some t from rfl)
    hcount hwrap hga
  constructor
  · exact hres
  · intro hcontra
    rw [hres] at hcontra
    exact Except.noConfusion hcontra

theorem open_resizes_to_expected_witness :
    ShmemRawArray [("/t", Segment.mk 8 (List.replicate 8 0))] (.ty .c_int) (.size 3)
      "/t" false =
      .ok (updateNs [("/t", Segment.mk 8 (List.replicate 8 0))] "/t"
          (ftruncateSeg (Segment.mk 8 (List.replicate 8 0)) 12),
        CArrayObj.mk .c_int 3 "/t"
          (ShmemBufferWrapper.mk (some "/t") (some 12) false 12)) :=
  (open_resizes_to_expected [("/t", Segment.mk 8 (List.replicate 8 0))] .c_int 3 "/t"
    (Segment.mk 8 (List.replicate 8 0)) "t".toList (by decide) (by decide) (by decide)
    (by decide) (by decide) (by decide)).1


theorem readElem_eq {ns : Namespace} {tag : String} {sz : Nat} {dat : List Nat}
    {t : CType} {i : Nat} (h : lookupNs ns tag = some (Segment.mk sz dat)) :
    readElem ns tag t i = some (decodeLE (readBytes dat (i * sizeofC t) (sizeofC t))) := by
  unfold readElem
  rw [h]

theorem rawArray_size_invariant {ns : Namespace} {ta : TypeArg} {soi : SizeOrInit}
    {tag : String} {create : Bool} {ns2 : Namespace} {obj : CArrayObj}
    (h : ShmemRawArray ns ta soi tag create = .ok (ns2, obj)) :
    obj.length * sizeofC obj.elemType = obj.buffer.size /\
    exists seg, lookupNs ns2 obj.tag = some seg /\ seg.size = obj.buffer.size := by
  obtain ⟨tagN, t, count, ns1, buffer, hc, hr, ha, hw, hg, hns2, hobj⟩ := ShmemRawArray_ok h
  subst hobj
  subst hns2
  cases create
  case true =>
    obtain ⟨_, _, hz, hnone, hns1, hbuf⟩ := wrapperInit_ok_true hw
    subst hns1
    subst hbuf
    refine ⟨?_, ?_⟩
    · show count * sizeofC t = ((count * sizeofC t : Nat) : Int).toNat
      rw [Int.toNat_natCast]
    · cases soi with
      | size nn =>
        exact ⟨Segment.mk ((count * sizeofC t : Nat) : Int).toNat
            (List.replicate ((count * sizeofC t : Nat) : Int).toNat 0),
          lookupNs_cons_self _ _ _, rfl⟩
      | vals vs =>
        exact ⟨_, objInitWrite_lookup (lookupNs_cons_self _ _ _), rfl⟩
  case false =>
    obtain ⟨_, _, seg, hseg, hdisj⟩ := wrapperInit_ok_false hw
    rcases hdisj with ⟨hz, hsznz, hns1, hbuf⟩ | ⟨hz, hns1, hbuf⟩
    · subst hns1
      subst hbuf
      have hmap := get_address_ok_map hg
      have hsz : seg.size = ((count * sizeofC t : Nat) : Int).toNat := by
        simpa using hmap
      rw [hz] at hsz
      exact absurd hsz hsznz
    · subst hns1
      subst hbuf
      refine ⟨?_, ?_⟩
      · show count * sizeofC t = ((count * sizeofC t : Nat) : Int).toNat
        rw [Int.toNat_natCast]
      · cases soi with
        | size nn =>
          exact ⟨ftruncateSeg seg ((count * sizeofC t : Nat) : Int).toNat,
            lookupNs_updateNs_self hseg, rfl⟩
        | vals vs =>
          exact ⟨_, objInitWrite_lookup (lookupNs_updateNs_self hseg), rfl⟩

/-- C3: after every successful construction path — by count, by
initializing sequence, or through the shaped numeric view — the invariant
`elementCount * sizeof(elementType) = byteSize` holds between the returned
typed array and its buffer wrapper, and the segment registered in the
namespace under the array's tag has exactly that byte size; for the shaped
view the element count additionally equals the product of the shape. -/
theorem construction_size_invariant :
    (∀ ns ta soi tag create ns2 obj,
      ShmemRawArray ns ta soi tag create = Except.ok (ns2, obj) →
      obj.length * sizeofC obj.elemType = obj.buffer.size /\
      exists seg, lookupNs ns2 obj.tag = some seg /\ seg.size = obj.buffer.size) /\
    (∀ ns dtype shape tag create ns2 arr,
      NpShmemArray ns dtype shape tag create = Except.ok (ns2, arr) →
      arr.flat.length = arr.shape.prod /\
      arr.flat.length * sizeofC arr.flat.elemType = arr.flat.buffer.size /\
      exists seg, lookupNs ns2 arr.flat.tag = some seg /\
        seg.size = arr.flat.buffer.size) := by
  constructor
  · intro ns ta soi tag create ns2 obj h
    exact rawArray_size_invariant h
  · intro ns dtype shape tag create ns2 arr h
    obtain ⟨t2, hd, hres, hshape⟩ := NpShmemArray_ok h
    have hinv := rawArray_size_invariant hres
    obtain ⟨tagN, t3, count, ns1, buffer, hc, hr, ha, hw, hg, hns2, hobj⟩ :=
      ShmemRawArray_ok hres
    have hcnt : count = shape.prod := by
      simp only [arrayCount] at ha
      rw [if_neg (not_lt.mpr (Int.natCast_nonneg _))] at ha
      simp only [Except.ok.injEq] at ha
      rw [← ha, Int.toNat_natCast]
    refine ⟨?_, hinv.1, hinv.2⟩
    rw [hobj, hshape]
    show count = shape.prod
    exact hcnt

theorem construction_size_invariant_witness :
    ShmemRawArray [] (.ty .c_double) (.size 4) "/w" true =
      .ok ([("/w", Segment.mk 32 (List.replicate 32 0))],
        CArrayObj.mk .c_double 4 "/w"
          (ShmemBufferWrapper.mk (some "/w") (some 32) true 32)) /\
    4 * sizeofC .c_double = 32 /\
    exists seg, lookupNs [("/w", Segment.mk 32 (List.replicate 32 0))] "/w" = some seg /\
      seg.size = 32 := by
  have h0 : ShmemRawArray [] (.ty .c_double) (.size 4) "/w" true =
      .ok ([("/w", Segment.mk 32 (List.replicate 32 0))],
        CArrayObj.mk .c_double 4 "/w"
          (ShmemBufferWrapper.mk (some "/w") (some 32) true 32)) := by decide
  have hres := construction_size_invariant.1 [] (.ty .c_double) (.size 4) "/w" true
    [("/w", Segment.mk 32 (List.replicate 32 0))]
    (CArrayObj.mk .c_double 4 "/w" (ShmemBufferWrapper.mk (some "/w") (some 32) true 32))
    h0
  exact ⟨h0, hres.1, hres.2⟩

/-- C9: creating a typed array from a non-empty initializing sequence
(creator flag set) yields an array whose element count is the sequence
length, and whose element at each index `i` reads back as `values[i]` —
the values having been written in order into the freshly created segment
(stated for values within the unsigned range of the element type, as
stored by the little-endian byte image). -/
theorem create_from_values (ns : Namespace) (t : CType) (vs : List Nat) (tag : String)
    (ns2 : Namespace) (obj : CArrayObj)
    (h : ShmemRawArray ns (.ty t) (.vals vs) tag true = Except.ok (ns2, obj))
    (hin : ∀ v, v ∈ vs → v < 256 ^ sizeofC t) :
    obj.length = vs.length /\
    ∀ i, (hi : i < vs.length) → readElem ns2 obj.tag t i = some (vs.get ⟨i, hi⟩) := by
  obtain ⟨tagN, t2, count, ns1, buffer, hc, hr, ha, hw, hg, hns2, hobj⟩ := ShmemRawArray_ok h
  have ht : t = t2 := by
    simp only [resolveType, Option.some.injEq] at hr
    exact hr
  subst ht
  have hcount : count = vs.length := by
    simp only [arrayCount, Except.ok.injEq] at ha
    exact ha.symm
  subst hcount
  obtain ⟨_, _, hz, hnone, hns1, hbuf⟩ := wrapperInit_ok_true hw
  subst hns1
  subst hbuf
  subst hobj
  subst hns2
  refine ⟨rfl, ?_⟩
  intro i hi
  have hL : ((vs.length * sizeofC t : Nat) : Int).toNat = vs.length * sizeofC t :=
    Int.toNat_natCast _
  have hlkw := @objInitWrite_lookup _ tagN (sizeofC t) vs _
    (lookupNs_cons_self tagN
      (Segment.mk ((vs.length * sizeofC t : Nat) : Int).toNat
        (List.replicate ((vs.length * sizeofC t : Nat) : Int).toNat 0)) ns)
  simp only [finalNs]
  rw [readElem_eq hlkw]
  have hbound : (0 + vs.length) * sizeofC t ≤
      (List.replicate ((vs.length * sizeofC t : Nat) : Int).toNat 0).length := by
    rw [List.length_replicate, hL]
    have heq0 : (0 + vs.length) * sizeofC t = vs.length * sizeofC t := by ring
    omega
  have hrw := readBytes_writeElems (sizeofC t) vs
    (List.replicate ((vs.length * sizeofC t : Nat) : Int).toNat 0) 0 i hi hbound
  have h0i : (0 + i) * sizeofC t = i * sizeofC t := by ring
  rw [h0i] at hrw
  rw [hrw, decodeLE_encodeLE, Nat.mod_eq_of_lt (hin _ (List.get_mem vs i hi))]

theorem create_from_values_witness :
    ShmemRawArray [] (.ty .c_int) (.vals [5, 7, 9]) "foo" true =
      .ok ([("/foo", Segment.mk 12 [5, 0, 0, 0, 7, 0, 0, 0, 9, 0, 0, 0])],
        CArrayObj.mk .c_int 3 "/foo"
          (ShmemBufferWrapper.mk (some "/foo") (some 12) true 12)) /\
    readElem [("/foo", Segment.mk 12 [5, 0, 0, 0, 7, 0, 0, 0, 9, 0, 0, 0])] "/foo"
      .c_int 0 = some 5 /\
    readElem [("/foo", Segment.mk 12 [5, 0, 0, 0, 7, 0, 0, 0, 9, 0, 0, 0])] "/foo"
      .c_int 1 = some 7 /\
    readElem [("/foo", Segment.mk 12 [5, 0, 0, 0, 7, 0, 0, 0, 9, 0, 0, 0])] "/foo"
      .c_int 2 = some 9 := by
  have h0 : ShmemRawArray [] (.ty .c_int) (.vals [5, 7, 9]) "foo" true =
      .ok ([("/foo", Segment.mk 12 [5, 0, 0, 0, 7, 0, 0, 0, 9, 0, 0, 0])],
        CArrayObj.mk .c_int 3 "/foo"
          (ShmemBufferWrapper.mk (some "/foo") (some 12) true 12)) := by decide
  have h := (create_from_values [] .c_int [5, 7, 9] "foo"
    [("/foo", Segment.mk 12 [5, 0, 0, 0, 7, 0, 0, 0, 9, 0, 0, 0])]
    (CArrayObj.mk .c_int 3 "/foo" (ShmemBufferWrapper.mk (some "/foo") (some 12) true 12))
    h0 (by decide)).2
  exact ⟨h0, h 0 (by decide), h 1 (by decide), h 2 (by decide)⟩

end Shmem
